import Mathlib

/-!
# ddp.js : a shallow embedding of the DDP command line tool

The development follows `src/ddp.js`.

* JavaScript values are the inductive type `JsVal` (JSON values plus `undefined`).
  Numbers are the integer-valued ones; fractional numbers are not represented.
* JavaScript objects used as dictionaries (`data`, the per-collection objects, `commands`,
  decoded messages) are association lists of their own properties, keyed by `String`.
  `Object.prototype` stands behind each of them, as the runtime created it: its property
  names are `objectPrototypeNames`. A `Store` is the heap in which `data` owns collections,
  each collection owns documents, and `Object.prototype` is untouched. Where the 'message'
  handler reaches a property that is inherited, not owned, it leaves this heap: the result
  is an `Escape`, which records the assignment the code performs there, and the run stops.
* Property names are taken from strings. A name computed from another value (number
  formatting, `Array.prototype.join`, `Object.prototype.toString`) is an `Escape` too.
* `JSON.parse` is a language primitive.  A string handed to the program from outside (an
  inbound frame, a command line argument) is a `RawString`: its characters, together with
  the value `JSON.parse` decodes it to, when it is JSON text.
* The elements of `argv._` are strings; the conversion of numeric arguments to numbers
  done by optimist is not represented.
* `process.exit`, `console.log`, `console.error` and the requests handed to the `ddp`
  library are recorded in the process state `Proc`.  Once `process.exit` has been called
  nothing else runs.
* The `ddp` library is outside `src/`: what it delivers to the callbacks and handlers the
  program registers is the type `Event`.

The definitions come first, the theorems after them.
-/

set_option autoImplicit false

namespace Ddp

/-! ## Exit codes (ddp.js, lines 3-8) -/

def SUCCESS : Nat := 0
def USAGE_ERROR : Nat := 1
def CONNECTION_ERROR : Nat := 2
def METHOD_ERROR : Nat := 3
def SUBSCRIPTION_ERROR : Nat := 4

/-! ## JavaScript values -/

/-- JavaScript values that reach the program: JSON values and `undefined`. -/
inductive JsVal where
  | undefined : JsVal
  | null : JsVal
  | bool (b : Bool) : JsVal
  | num (n : Int) : JsVal
  | str (s : String) : JsVal
  | arr (items : List JsVal) : JsVal
  | obj (props : List (String × JsVal)) : JsVal

/-- Exceptions the embedded code can throw. -/
inductive JsError where
  /-- Thrown by `JSON.parse` on a string that is not JSON text (a SyntaxError). -/
  | parseError : JsError
  /-- Thrown by a property access on `null` or `undefined` (a TypeError). -/
  | typeError : JsError
  deriving DecidableEq, Repr

/-- JavaScript truthiness, as tested by `if (v)`, `!v` and `v || w`. -/
def JsVal.truthy : JsVal → Bool
  | .undefined => false
  | .null => false
  | .bool b => b
  | .num n => n != 0
  | .str s => s != ""
  | .arr _ => true
  | .obj _ => true

/-- Strict equality with a string literal: `v === lit`. -/
def JsVal.strictEqStr : JsVal → String → Bool
  | .str s, lit => s == lit
  | _, _ => false

/-! ## Objects used as dictionaries -/

/-- The property names every object inherits from `Object.prototype`: the accessor
`__proto__` and the built-in methods. -/
def objectPrototypeNames : List String :=
  ["__proto__", "constructor", "toString", "toLocaleString", "valueOf", "hasOwnProperty",
   "isPrototypeOf", "propertyIsEnumerable", "__defineGetter__", "__defineSetter__",
   "__lookupGetter__", "__lookupSetter__"]

/-- The own property `k` of a dictionary: `none` when the object does not own `k`. -/
def getOwn {α : Type} : List (String × α) → String → Option α
  | [], _ => none
  | (k, v) :: rest, key => if k = key then some v else getOwn rest key

/-- The own property `k` of a dictionary set to `v`: an existing own property is
overwritten in place, a new one is added after the existing ones. An assignment `o[k] = v`
is this when `o` owns `k`, or when `k` is not the inherited accessor `__proto__`. -/
def setOwn {α : Type} : List (String × α) → String → α → List (String × α)
  | [], key, val => [(key, val)]
  | (k, v) :: rest, key, val =>
      if k = key then (k, val) :: rest else (k, v) :: setOwn rest key val

/-- Member access `v.k`: a TypeError on `null` and `undefined`, the own property of an
object, `undefined` on the remaining values (for the names the program reads, `msg`,
`collection`, `id` and `fields`, none of which a primitive, an array or `Object.prototype`
carries). -/
def getProp : JsVal → String → Except JsError JsVal
  | .undefined, _ => .error .typeError
  | .null, _ => .error .typeError
  | .obj props, k => .ok ((getOwn props k).getD .undefined)
  | _, _ => .ok .undefined

/-! ## Strings from outside and `JSON.parse` -/

/-- A string received from outside: either the JSON text `src` of the value `value`, or a
string `src` that is not JSON text. -/
inductive RawString where
  | jsonText (src : String) (value : JsVal) : RawString
  | notJson (src : String) : RawString

/-- The characters of the string. -/
def RawString.src : RawString → String
  | .jsonText s _ => s
  | .notJson s => s

/-- `JSON.parse(s)`: the decoded value, or a thrown SyntaxError. -/
def JSON.parse : RawString → Except JsError JsVal
  | .jsonText _ v => .ok v
  | .notJson _ => .error .parseError

/-! ## The document store `data` and the 'message' handler (ddp.js, lines 23, 50-58) -/

/-- A per-collection object: document id to the stored `fields` value. -/
abbrev Collection := List (String × JsVal)

/-- The global `data` object: collection name to per-collection object. -/
abbrev Store := List (String × Collection)

/-- The initial value `var data = {}`. -/
def data : Store := []

/-- The stored value `data[c][i]`, `none` when the collection or the document is absent. -/
def Store.doc (d : Store) (c i : String) : Option JsVal :=
  match getOwn d c with
  | none => none
  | some coll => getOwn coll i

/-- The assignments by which the handler leaves the heap of own properties. -/
inductive Escape where
  /-- Line 55 needs the property name of `msg.collection`, which is not a string; `data`
  owns `d`. -/
  | collectionName (d : Store) (collection : JsVal) : Escape
  /-- The collection name is `__proto__`, which `data` does not own: `data['__proto__']`
  reads `Object.prototype`, line 55 hands it to the `__proto__` setter of `data`, which
  keeps the prototype `data` already has, and line 56 is the assignment
  `Object.prototype[id] = fields`. `data` still owns `d`. -/
  | objectPrototypeWrite (d : Store) (id fields : JsVal) : Escape
  /-- The collection name is one of the inherited method names, which `data` does not
  own: `data[name]` reads the built-in function, line 55 makes it an own property of
  `data`, which owned `d`, and line 56 is the assignment `thatFunction[id] = fields`. -/
  | builtinWrite (d : Store) (name : String) (id fields : JsVal) : Escape
  /-- Line 56 needs the property name of `msg.id`, which is not a string; `data` owns
  `d1` after line 55. -/
  | idName (d1 : Store) (collection : String) (id : JsVal) : Escape
  /-- The id is `__proto__`, which the collection does not own: line 56 calls the
  `__proto__` setter of the collection object with `fields`. `data` owns `d1` after
  line 55. -/
  | prototypeSet (d1 : Store) (collection : String) (fields : JsVal) : Escape

/-- Why a run of the handler ends without a store. -/
inductive Halt where
  /-- An exception left the handler. -/
  | threw (e : JsError) : Halt
  /-- The handler left the heap of own properties. -/
  | escape (x : Escape) : Halt

/-- An exception of the language as the end of a run. -/
def threwOf {α : Type} : Except JsError α → Except Halt α
  | .ok a => .ok a
  | .error e => .error (.threw e)

/-- Line 56, `data[msg.collection][msg.id] = msg.fields`, for a collection `c` that `d1`
owns: a document the collection owns is overwritten, a new one is created unless its name
is `__proto__`. -/
def writeDocument (d1 : Store) (c : String) (msg : JsVal) : Except Halt Store := do
  let coll := (getOwn d1 c).getD []
  let id ← threwOf (getProp msg "id")
  let fields ← threwOf (getProp msg "fields")
  match id with
  | .str i =>
      if (getOwn coll i).isNone && i == "__proto__" then
        .error (.escape (.prototypeSet d1 c fields))
      else
        return setOwn d1 c (setOwn coll i fields)
  | _ => .error (.escape (.idName d1 c id))

/-- The 'message' handler of `Client.prototype.setup`:
decode the frame, and on `msg.msg === 'added'` run
`data[msg.collection] = data[msg.collection] || {}` and
`data[msg.collection][msg.id] = msg.fields`. Every other decoded message falls through.
In line 55 a collection that `data` owns is kept; a name that `data` neither owns nor
inherits gets the new object; an inherited name is an `Escape`. -/
def onMessage (d : Store) (frame : RawString) : Except Halt Store := do
  let msg ← threwOf (JSON.parse frame)
  let kind ← threwOf (getProp msg "msg")
  if kind.strictEqStr "added" then
    let collection ← threwOf (getProp msg "collection")
    match collection with
    | .str c =>
        match getOwn d c with
        | some coll => writeDocument (setOwn d c coll) c msg
        | none =>
            if c = "__proto__" then
              let id ← threwOf (getProp msg "id")
              let fields ← threwOf (getProp msg "fields")
              .error (.escape (.objectPrototypeWrite d id fields))
            else if c ∈ objectPrototypeNames then
              let id ← threwOf (getProp msg "id")
              let fields ← threwOf (getProp msg "fields")
              .error (.escape (.builtinWrite d c id fields))
            else writeDocument (setOwn d c []) c msg
    | _ => .error (.escape (.collectionName d collection))
  else
    return d

/-- The handler run over a sequence of frames, in arrival order; the first exception or
escape ends the run. -/
def onMessages : Store → List RawString → Except Halt Store
  | d, [] => .ok d
  | d, f :: rest =>
      match onMessage d f with
      | .ok d1 => onMessages d1 rest
      | .error e => .error e

/-! ## The process: console, exit code, the client and its requests -/

/-- The `argv` object built by optimist, passed to every `run` as `opts`. -/
abbrev Opts := List (String × JsVal)

/-- One line written by `console.log` or `console.error`. -/
inductive Out where
  /-- A literal line. -/
  | text (s : String) : Out
  /-- A literal label followed by a value, as in `console.log('Connection error: ', err)`. -/
  | labelled (s : String) (v : JsVal) : Out
  /-- The line `JSON.stringify(v)`. -/
  | json (v : JsVal) : Out
  /-- The line `JSON.stringify(data)`: the dump of the whole store. -/
  | dump (d : Store) : Out
  /-- A literal label followed by the text of a caught exception. -/
  | thrown (s : String) (e : JsError) : Out

/-- A request handed to the `ddp` library. -/
inductive Request where
  /-- The request `this.call(method, methodArgs, callback)`. -/
  | method (name : JsVal) (params : List JsVal) : Request
  /-- The request `this.subscribe(name, params, callback)`. -/
  | sub (name : JsVal) (params : List JsVal) : Request

/-- The four `onConnect` continuations, one per command, with the variables they close
over. -/
inductive OnConnect where
  | connect : OnConnect
  | call (method : JsVal) (methodArgs : List RawString) : OnConnect
  | subscribe (subscription : JsVal) (subscriptionArgs : List RawString) : OnConnect
  | subscribeMulti (subscriptions : List RawString) : OnConnect

/-- A `Client` instance. -/
structure Client where
  /-- The options object the `DDPClient` constructor was called with. -/
  ctorOpts : Opts
  /-- The continuation given to `setup`. -/
  onConnect : OnConnect
  /-- Whether the callback given to `this.connect` is still to be invoked. -/
  connectPending : Bool
  /-- The requests issued so far, oldest first. -/
  requests : List Request
  /-- The counter `complete` of the subscribe-multi continuation. -/
  complete : Nat
  /-- How many times `close` ran. -/
  closeCalls : Nat

/-- The state of the process. -/
structure Proc where
  /-- The global store. -/
  data : Store
  /-- Lines written with `console.log`, oldest first. -/
  stdout : List Out
  /-- Lines written with `console.error`, oldest first. -/
  stderr : List Out
  /-- The argument of `process.exit`, once it has been called. -/
  exitCode : Option Nat
  /-- The client created by the command, if any. -/
  client : Option Client
  /-- The exception that left the script uncaught, if any. -/
  uncaught : Option JsError

/-- The process before the script runs. -/
def Proc.init : Proc :=
  { data := Ddp.data, stdout := [], stderr := [], exitCode := none, client := none,
    uncaught := none }

/-- The call `console.log(line)`. -/
def Proc.log (p : Proc) (line : Out) : Proc := { p with stdout := p.stdout ++ [line] }

/-- The call `console.error(line)`. -/
def Proc.logError (p : Proc) (line : Out) : Proc := { p with stderr := p.stderr ++ [line] }

/-- The call `process.exit(code)`: the process ends with that code. -/
def Proc.exit (p : Proc) (code : Nat) : Proc := { p with exitCode := some code }

/-- The client of the process replaced by `c`. -/
def Proc.setClient (p : Proc) (c : Client) : Proc := { p with client := some c }

/-- The requests issued by the client of the process. -/
def Proc.requests (p : Proc) : List Request :=
  match p.client with
  | none => []
  | some c => c.requests

/-- `Client.prototype.parseArgs`: each argument is replaced by `JSON.parse(arg)`, or kept as
it is when `JSON.parse` throws. -/
def parseArgs (args : List RawString) : List JsVal :=
  args.map (fun arg =>
    match JSON.parse arg with
    | .ok v => v
    | .error _ => JsVal.str arg.src)

/-- The constructor `Client(onConnect, opts)`: `opts = opts || {}`, the `DDPClient`
constructor is called with `opts`, and `setup` registers the continuation and the event
handlers. An absent second argument is `none`. -/
def Client.create (onConnect : OnConnect) (opts : Option Opts) (p : Proc) : Proc :=
  p.setClient
    { ctorOpts := opts.getD [], onConnect := onConnect, connectPending := true,
      requests := [], complete := 0, closeCalls := 0 }

/-! ## The commands (ddp.js, lines 89-200) -/

/-- The keys of the `commands` object. -/
inductive Command where
  | connect : Command
  | call : Command
  | subscribe : Command
  | subscribeMulti : Command
  deriving DecidableEq, Repr

/-- The own properties of the `commands` object: the command that `commands` owns under
`commandName`, if any. -/
def commands (commandName : String) : Option Command :=
  if commandName = "connect" then some .connect
  else if commandName = "call" then some .call
  else if commandName = "subscribe" then some .subscribe
  else if commandName = "subscribe-multi" then some .subscribeMulti
  else none

/-- The `usage` function of each command: two lines on the error stream and
`process.exit(USAGE_ERROR)`. -/
def Command.usage : Command → Proc → Proc
  | .connect, p =>
      ((p.logError (.text "Connect to a DDP server")).logError
        (.text "Usage: ddp connect")).exit USAGE_ERROR
  | .call, p =>
      ((p.logError (.text "Call a Meteor method")).logError
        (.text "Usage: ddp call <method> [<param1> <param2> ...]")).exit USAGE_ERROR
  | .subscribe, p =>
      ((p.logError (.text "Subscribe to a Meteor Collection")).logError
        (.text "Usage: ddp subscribe <subscription> [<param1> <param2> ...]")).exit USAGE_ERROR
  | .subscribeMulti, p =>
      ((p.logError (.text "Subscribe to multiple Meteor Collections")).logError
        (.text "Usage: ddp subscribe-multi <subscription> [<subscription2> <subscription3> ...]")).exit
        USAGE_ERROR

/-- The element `args[0]`: `undefined` on the empty array. -/
def firstArg : List RawString → JsVal
  | [] => .undefined
  | a :: _ => .str a.src

/-- The `run` function of each command. -/
def Command.run : Command → List RawString → Opts → Proc → Proc
  | .connect, _, opts, p => Client.create .connect (some opts) p
  | .call, args, opts, p =>
      let methodArgs := args.drop 1
      let method := firstArg args
      if !method.truthy then Command.usage .call p
      else Client.create (.call method methodArgs) (some opts) p
  | .subscribe, args, opts, p =>
      let subscriptionArgs := args.drop 1
      let subscription := firstArg args
      if !subscription.truthy then Command.usage .subscribe p
      else Client.create (.subscribe subscription subscriptionArgs) (some opts) p
  | .subscribeMulti, args, _, p =>
      let subscriptions := args
      if subscriptions.length = 0 then Command.usage .subscribeMulti p
      else Client.create (.subscribeMulti subscriptions) none p

/-! ## The top level script (ddp.js, lines 202-243) -/

/-- The top level `usage` function: the help text on the error stream and
`process.exit(SUCCESS)`. -/
def usage (p : Proc) : Proc :=
  ((((((((p.logError (.text "Command line tools for DDP.\n")).logError
    (.text "Usage: ddp [--host] [--port] [--path] [--auto_reconnect] [--use_ssl] [--auto_reconnect_timer] <command> [<args>]\n")).logError
    (.text "Available commands are:")).logError
    (.text "\tconnect\t\t\tConnect to a DDP server")).logError
    (.text "\tsubscribe\t\tSubscribe to a collection with parameters")).logError
    (.text "\tsubscribe-multi\t\tSubscribe to multiple collections")).logError
    (.text "\tcall\t\t\tCall a method")).exit SUCCESS)

/-- The script: `args` is `argv._` and `argv` the options object. The command name is
`args[0]`; a missing name, or a name that `commands` neither owns nor inherits, goes to
the top level `usage`; a name that `commands` owns runs that command on the remaining
arguments. For a name inherited from `Object.prototype` the value is truthy and has no
`run`, so `command.run.call` throws a TypeError inside the `try`: the `catch` branch logs
it, and its `this.usage()`, with `this` the exports object, throws a TypeError that
nothing catches. No `run` of the four commands throws. -/
def main (args : List RawString) (argv : Opts) : Proc :=
  let commandName := firstArg args
  let rest := args.drop 1
  if !commandName.truthy then usage Proc.init
  else
    match commandName with
    | .str name =>
        match commands name with
        | some command => command.run rest argv Proc.init
        | none =>
            if name ∈ objectPrototypeNames then
              { Proc.init.logError (.thrown "Error running command: " .typeError) with
                uncaught := some .typeError }
            else usage Proc.init
    | _ => usage Proc.init

/-! ## Events and the callbacks they reach (ddp.js, lines 41-72, 98-101, 118-131,
149-162, 178-197) -/

/-- What the `ddp` library and the runtime deliver to the process. -/
inductive Event where
  /-- The callback given to `this.connect` is invoked with `err`. -/
  | connect (err : JsVal) : Event
  /-- The 'message' event with a raw frame. -/
  | message (frame : RawString) : Event
  /-- The 'socket-close' event. -/
  | socketClose (code message : JsVal) : Event
  /-- The 'socket-error' event. -/
  | socketError (error : JsVal) : Event
  /-- The callback given to `this.call` is invoked with `err` and `res`. -/
  | callResult (err res : JsVal) : Event
  /-- The callback given to the subscribe request number `index` is invoked with `err`. -/
  | subResult (index : Nat) (err : JsVal) : Event
  /-- The signal SIGINT. -/
  | sigint : Event

/-- The body of the four continuations, run with `this` the client `c`. -/
def OnConnect.run (c : Client) (p : Proc) : Proc :=
  match c.onConnect with
  | .connect => (p.log (.text "[connected]")).exit SUCCESS
  | .call method methodArgs =>
      p.setClient
        { c with requests := c.requests ++ [Request.method method (parseArgs methodArgs)] }
  | .subscribe subscription subscriptionArgs =>
      p.setClient
        { c with requests :=
            c.requests ++ [Request.sub subscription (parseArgs subscriptionArgs)] }
  | .subscribeMulti subscriptions =>
      p.setClient
        { c with
          complete := 0
          requests := c.requests ++ subscriptions.map (fun s => Request.sub (.str s.src) []) }

/-- The callback given to `this.connect` in `setup`: on an error the process exits with
`CONNECTION_ERROR`, and only otherwise is the continuation called. -/
def connectCallback (c : Client) (err : JsVal) (p : Proc) : Proc :=
  if err.truthy then (p.log (.labelled "Connection error: " err)).exit CONNECTION_ERROR
  else OnConnect.run c p

/-- The 'socket-close' handler. -/
def onSocketClose (p : Proc) : Proc := p.exit CONNECTION_ERROR

/-- The 'socket-error' handler: the label and the text of the error on the error stream,
then `process.exit(CONNECTION_ERROR)`. -/
def onSocketError (error : JsVal) (p : Proc) : Proc :=
  (p.logError (.labelled "[socket error]: " error)).exit CONNECTION_ERROR

/-- The SIGINT handler: `client.close()`. -/
def onSigint (c : Client) (p : Proc) : Proc :=
  let p1 := (p.log (.text "")).log (.text "Closing DDP connection")
  p1.setClient { c with closeCalls := c.closeCalls + 1 }

/-- The callback given to `this.call` by the `call` command. -/
def callCallback (err res : JsVal) (p : Proc) : Proc :=
  if err.truthy then (p.log (.json err)).exit METHOD_ERROR
  else (p.log (.json res)).exit SUCCESS

/-- The callback given to `this.subscribe` by the `subscribe` command. -/
def subscribeCallback (err : JsVal) (p : Proc) : Proc :=
  if err.truthy then (p.log (.json err)).exit SUBSCRIPTION_ERROR
  else (p.log (.dump p.data)).exit SUCCESS

/-- The callback given to each `this.subscribe` by the `subscribe-multi` command. -/
def subscribeMultiCallback (subscriptions : List RawString) (c : Client) (err : JsVal)
    (p : Proc) : Proc :=
  if err.truthy then (p.log (.json err)).exit SUBSCRIPTION_ERROR
  else
    let complete := c.complete + 1
    let p1 : Proc := p.setClient { c with complete := complete }
    if complete = subscriptions.length then (p1.log (.dump p1.data)).exit SUCCESS
    else p1

/-- One event. Nothing runs once `process.exit` has been called or when no client exists.
The connect callback is taken once; a result callback runs only for a request that was
issued. An exception thrown by the 'message' handler leaves the handler, and an escape of
the handler ends the run. -/
def step (p : Proc) (ev : Event) : Except Halt Proc :=
  match p.exitCode, p.client with
  | some _, _ => .ok p
  | none, none => .ok p
  | none, some c =>
      match ev with
      | .connect err =>
          if c.connectPending then
            .ok (connectCallback { c with connectPending := false } err
              (p.setClient { c with connectPending := false }))
          else .ok p
      | .message frame =>
          match onMessage p.data frame with
          | .ok d => .ok { p with data := d }
          | .error e => .error e
      | .socketClose _ _ => .ok (onSocketClose p)
      | .socketError error => .ok (onSocketError error p)
      | .sigint => .ok (onSigint c p)
      | .callResult err res =>
          match c.onConnect with
          | .call _ _ => if c.requests.length = 0 then .ok p else .ok (callCallback err res p)
          | _ => .ok p
      | .subResult index err =>
          match c.onConnect with
          | .subscribe _ _ =>
              if index < c.requests.length then .ok (subscribeCallback err p) else .ok p
          | .subscribeMulti subscriptions =>
              if index < c.requests.length then
                .ok (subscribeMultiCallback subscriptions c err p)
              else .ok p
          | _ => .ok p

/-- The events of a list, delivered in order; the first exception or escape ends the
run. -/
def deliver : Proc → List Event → Except Halt Proc
  | p, [] => .ok p
  | p, ev :: rest =>
      match step p ev with
      | .ok p1 => deliver p1 rest
      | .error e => .error e

/-! ## Data messages, the two folds, and completions -/

/-- The three data messages of the protocol, with string collection and id; `fields` is
the value of `msg.fields`, `undefined` when the message has none. -/
inductive DataMsg where
  | added (collection id : String) (fields : JsVal) : DataMsg
  | changed (collection id : String) (fields : JsVal) : DataMsg
  | removed (collection id : String) : DataMsg

/-- The data message a decoded value is: an object whose `msg` is `added`, `changed` or
`removed` and whose `collection` and `id` are strings, with its properties in any order
and whatever else it carries. -/
def decodeDataMsg : JsVal → Option DataMsg
  | .obj props =>
      match getOwn props "msg", getOwn props "collection", getOwn props "id" with
      | some (.str kind), some (.str c), some (.str i) =>
          if kind = "added" then some (.added c i ((getOwn props "fields").getD .undefined))
          else if kind = "changed" then
            some (.changed c i ((getOwn props "fields").getD .undefined))
          else if kind = "removed" then some (.removed c i)
          else none
      | _, _, _ => none
  | _ => none

/-- The data message a frame decodes to, if it is one. -/
def decodeFrame (frame : RawString) : Option DataMsg :=
  match JSON.parse frame with
  | .ok v => decodeDataMsg v
  | .error _ => none

/-- Whether the names of an `added` message are names no object inherits where the
handler uses them: the collection is not a property name of `Object.prototype` and the id
is not `__proto__`. The other messages name nothing the handler uses. -/
def DataMsg.plainNames : DataMsg → Bool
  | .added c i _ => decide (c ∉ objectPrototypeNames) && (i != "__proto__")
  | .changed _ _ _ => true
  | .removed _ _ => true

/-- The fields of `extra` written over `base`, field by field. -/
def mergeFields (base extra : List (String × JsVal)) : List (String × JsVal) :=
  extra.foldl (fun acc kv => setOwn acc kv.1 kv.2) base

/-- The field set `base` with the field set `extra` merged into it; a value that is not
an object merges nothing. -/
def mergeInto : JsVal → JsVal → JsVal
  | .obj base, .obj extra => .obj (mergeFields base extra)
  | base, _ => base

/-- The fold of the specification, for the document `c`/`i`: `added` replaces the field
set, `changed` merges the message fields into the existing field set, `removed` deletes
the entry. A `changed` for a document that is absent is ignored. -/
def specFold (c i : String) : Option JsVal → List DataMsg → Option JsVal
  | cur, [] => cur
  | cur, .added c1 i1 f :: rest =>
      specFold c i (if c1 = c ∧ i1 = i then some f else cur) rest
  | cur, .changed c1 i1 f :: rest =>
      specFold c i (if c1 = c ∧ i1 = i then cur.map (fun b => mergeInto b f) else cur) rest
  | cur, .removed c1 i1 :: rest =>
      specFold c i (if c1 = c ∧ i1 = i then none else cur) rest

/-- The fold the handler computes, for the document `c`/`i`: `added` replaces the stored
value, `changed` and `removed` leave it as it is. -/
def addedFold (c i : String) : Option JsVal → List DataMsg → Option JsVal
  | cur, [] => cur
  | cur, .added c1 i1 f :: rest =>
      addedFold c i (if c1 = c ∧ i1 = i then some f else cur) rest
  | cur, .changed _ _ _ :: rest => addedFold c i cur rest
  | cur, .removed _ _ :: rest => addedFold c i cur rest

/-- The events of a sequence of subscription completions: the pair `(i, err)` is the
callback of subscribe request number `i` invoked with `err`. -/
def completionEvents (completions : List (Nat × JsVal)) : List Event :=
  completions.map (fun ie => Event.subResult ie.1 ie.2)

/-- The value of the counter `complete`, when the process has a client. -/
def Proc.complete (p : Proc) : Option Nat := p.client.map Client.complete

/-! ## Sample inputs -/

/-- A store holding one document, `posts/1`, with the two fields `title` and `draft`. -/
def sampleStore : Store :=
  [("posts", [("1", .obj [("title", .str "old"), ("draft", .bool true)])])]

/-- The decoded message `added` for `posts/1` with the single field `title`. -/
def sampleAddedProps : List (String × JsVal) :=
  [("msg", .str "added"), ("collection", .str "posts"), ("id", .str "1"),
   ("fields", .obj [("title", .str "new")])]

/-- The decoded message `ready` for the subscription `1`. -/
def sampleReadyProps : List (String × JsVal) :=
  [("msg", .str "ready"), ("subs", .arr [.str "1"])]

/-- The decoded message `added` for the collection `__proto__` and the id `2`. -/
def samplePrototypeProps : List (String × JsVal) :=
  [("msg", .str "added"), ("collection", .str "__proto__"), ("id", .str "2"),
   ("fields", .obj [("title", .str "new")])]

/-- The frames of the run `added posts/1`, `changed posts/1`, `removed posts/1`; the
`changed` message carries `cleared` and has its properties in another order. -/
def sampleFrames : List RawString :=
  [.jsonText
     "\x7b\"msg\":\"added\",\"collection\":\"posts\",\"id\":\"1\",\"fields\":\x7b\"title\":\"new\"\x7d\x7d"
     (.obj [("msg", .str "added"), ("collection", .str "posts"), ("id", .str "1"),
       ("fields", .obj [("title", .str "new")])]),
   .jsonText
     "\x7b\"id\":\"1\",\"collection\":\"posts\",\"msg\":\"changed\",\"fields\":\x7b\"draft\":true\x7d,\"cleared\":[\"author\"]\x7d"
     (.obj [("id", .str "1"), ("collection", .str "posts"), ("msg", .str "changed"),
       ("fields", .obj [("draft", .bool true)]), ("cleared", .arr [.str "author"])]),
   .jsonText "\x7b\"msg\":\"removed\",\"collection\":\"posts\",\"id\":\"1\"\x7d"
     (.obj [("msg", .str "removed"), ("collection", .str "posts"), ("id", .str "1")])]

/-- The data messages of `sampleFrames`. -/
def sampleMsgs : List DataMsg :=
  [.added "posts" "1" (.obj [("title", .str "new")]),
   .changed "posts" "1" (.obj [("draft", .bool true)]),
   .removed "posts" "1"]

/-- Three command line arguments: the JSON texts `42` and an object, and `hello`, which
is not JSON text. -/
def sampleArgs : List RawString :=
  [.jsonText "42" (.num 42), .notJson "hello",
   .jsonText "\x7b\"a\":1\x7d" (.obj [("a", .num 1)])]

/-- The client of `ddp call echo "hi"` before the connect callback is invoked. -/
def sampleCallClient : Client :=
  { ctorOpts := [], onConnect := .call (.str "echo") [.jsonText "\"hi\"" (.str "hi")],
    connectPending := true, requests := [], complete := 0, closeCalls := 0 }

/-- The client of `ddp call echo "hi"` once the method request has been issued. -/
def sampleCallClientSent : Client :=
  { sampleCallClient with
    connectPending := false, requests := [.method (.str "echo") [.str "hi"]] }

/-- The client of `ddp subscribe posts` once the subscribe request has been issued. -/
def sampleSubscribeClientSent : Client :=
  { ctorOpts := [], onConnect := .subscribe (.str "posts") [],
    connectPending := false, requests := [.sub (.str "posts") []], complete := 0,
    closeCalls := 0 }

/-- The names of `ddp subscribe-multi posts users`. -/
def sampleNames : List RawString := [.notJson "posts", .notJson "users"]

/-- The client of `ddp subscribe-multi posts users` once the connect callback has run the
continuation: both subscribe requests are issued and the counter is 0. -/
def sampleMultiClient : Client :=
  { ctorOpts := [], onConnect := .subscribeMulti sampleNames, connectPending := false,
    requests := [.sub (.str "posts") [], .sub (.str "users") []], complete := 0,
    closeCalls := 0 }

/-! ## Dictionary lemmas -/

theorem getOwn_setOwn_same {α : Type} (o : List (String × α)) (k : String) (v : α) :
    getOwn (setOwn o k v) k = some v := by
  induction o with
  | nil => simp [setOwn, getOwn]
  | cons hd tl ih =>
    obtain ⟨k0, v0⟩ := hd
    by_cases hk : k0 = k
    · simp [setOwn, getOwn, hk]
    · simp [setOwn, getOwn, hk, ih]

theorem getOwn_setOwn_other {α : Type} (o : List (String × α)) (k k1 : String) (v : α)
    (hne : k1 ≠ k) : getOwn (setOwn o k v) k1 = getOwn o k1 := by
  induction o with
  | nil =>
    have : ¬ k = k1 := fun h => hne h.symm
    simp [setOwn, getOwn, this]
  | cons hd tl ih =>
    obtain ⟨k0, v0⟩ := hd
    by_cases hk : k0 = k
    · subst hk
      have : ¬ k0 = k1 := fun h => hne h.symm
      simp [setOwn, getOwn, this]
    · by_cases hk1 : k0 = k1
      · subst hk1
        simp [setOwn, getOwn, hk]
      · simp [setOwn, getOwn, hk, hk1, ih]

theorem setOwn_setOwn_same {α : Type} (o : List (String × α)) (k : String) (v w : α) :
    setOwn (setOwn o k v) k w = setOwn o k w := by
  induction o with
  | nil => simp [setOwn]
  | cons hd tl ih =>
    obtain ⟨k0, v0⟩ := hd
    by_cases hk : k0 = k
    · simp [setOwn, hk]
    · simp [setOwn, hk, ih]

/-- Reading back the document just written. -/
theorem doc_write_same (d : Store) (c i : String) (f : JsVal) :
    Store.doc (setOwn d c (setOwn ((getOwn d c).getD []) i f)) c i = some f := by
  simp [Store.doc, getOwn_setOwn_same]

/-- Writing one document leaves every other (collection, id) entry as it reads. -/
theorem doc_write_other (d : Store) (c i : String) (f : JsVal) (c1 i1 : String)
    (hne : ¬ (c1 = c ∧ i1 = i)) :
    Store.doc (setOwn d c (setOwn ((getOwn d c).getD []) i f)) c1 i1 = d.doc c1 i1 := by
  by_cases hc : c1 = c
  · subst hc
    have hi : i1 ≠ i := fun hi => hne ⟨rfl, hi⟩
    simp only [Store.doc, getOwn_setOwn_same]
    rw [getOwn_setOwn_other _ _ _ _ hi]
    cases getOwn d c1 <;> simp [getOwn]
  · simp only [Store.doc]
    rw [getOwn_setOwn_other _ _ _ _ hc]

/-- Line 56 on an object message with a string id other than `__proto__`. -/
theorem writeDocument_plain (d1 : Store) (c i : String) (props : List (String × JsVal))
    (hi : getOwn props "id" = some (.str i)) (hin : i ≠ "__proto__") :
    writeDocument d1 c (.obj props) =
      .ok (setOwn d1 c (setOwn ((getOwn d1 c).getD []) i
        ((getOwn props "fields").getD .undefined))) := by
  have hb : (i == "__proto__") = false := by simpa using hin
  simp only [writeDocument, getProp, threwOf, hi, Option.getD_some, bind, Except.bind, pure,
    Except.pure, hb, Bool.and_false]
  rfl

/-- The store after an `added` message with string names that no object inherits. -/
theorem onMessage_added (d : Store) (src : String) (props : List (String × JsVal))
    (c i : String) (h : getOwn props "msg" = some (.str "added"))
    (hc : getOwn props "collection" = some (.str c)) (hi : getOwn props "id" = some (.str i))
    (hcn : c ∉ objectPrototypeNames) (hin : i ≠ "__proto__") :
    onMessage d (.jsonText src (.obj props)) =
      .ok (setOwn d c (setOwn ((getOwn d c).getD []) i
        ((getOwn props "fields").getD .undefined))) := by
  have hproto : c ≠ "__proto__" := by
    intro hp
    exact hcn (by rw [hp]; decide)
  simp only [onMessage, JSON.parse, getProp, threwOf, h, hc, Option.getD_some,
    JsVal.strictEqStr, bind, Except.bind, beq_self_eq_true, if_true]
  cases hown : getOwn d c with
  | none =>
    simp only [hproto, hcn, if_false]
    rw [writeDocument_plain _ c i props hi hin]
    simp [getOwn_setOwn_same, setOwn_setOwn_same]
  | some coll =>
    simp only []
    rw [writeDocument_plain _ c i props hi hin]
    simp [getOwn_setOwn_same, setOwn_setOwn_same]

/-- A decoded object whose `msg` is not the string `added` leaves the store as it is. -/
theorem onMessage_not_added (d : Store) (src : String) (props : List (String × JsVal))
    (h : getOwn props "msg" ≠ some (.str "added")) :
    onMessage d (.jsonText src (.obj props)) = .ok d := by
  have hk : ((getOwn props "msg").getD .undefined).strictEqStr "added" = false := by
    cases hm : getOwn props "msg" with
    | none => simp [JsVal.strictEqStr]
    | some v =>
      cases v with
      | str s =>
        have : s ≠ "added" := fun hs => h (by rw [hm, hs])
        simp [JsVal.strictEqStr, this]
      | _ => simp [JsVal.strictEqStr]
  simp only [onMessage, JSON.parse, getProp, threwOf, hk, bind, Except.bind, pure,
    Except.pure]
  rfl

/-! ## The 'message' handler: `added` (C6) -/

/-- C6 fails: on the store `sampleStore`, which owns the collection `posts` only, the
`added` message for collection `__proto__` and id `2` creates no entry. `data` does not
own `__proto__`, so `data['__proto__']` reads `Object.prototype`, line 55 changes nothing
and line 56 is the assignment `Object.prototype['2'] = fields`: `data` owns what it owned
before, no store maps (`__proto__`, `2`) to the fields, and every object, the collection
`posts` among them, now inherits a property `2`. -/
theorem added_reaches_object_prototype :
    onMessage sampleStore (.jsonText
        "\x7b\"msg\":\"added\",\"collection\":\"__proto__\",\"id\":\"2\",\"fields\":\x7b\"title\":\"new\"\x7d\x7d"
        (.obj samplePrototypeProps))
      = .error (.escape (.objectPrototypeWrite sampleStore (.str "2")
          (.obj [("title", .str "new")]))) ∧
    sampleStore.doc "__proto__" "2" = none ∧
    ¬ ∃ d1, onMessage sampleStore (.jsonText
        "\x7b\"msg\":\"added\",\"collection\":\"__proto__\",\"id\":\"2\",\"fields\":\x7b\"title\":\"new\"\x7d\x7d"
        (.obj samplePrototypeProps)) = .ok d1 ∧
      d1.doc "__proto__" "2" = some (.obj [("title", .str "new")]) := by
  refine ⟨rfl, rfl, ?_⟩
  rintro ⟨d1, h, _⟩
  have hesc : onMessage sampleStore (.jsonText
        "\x7b\"msg\":\"added\",\"collection\":\"__proto__\",\"id\":\"2\",\"fields\":\x7b\"title\":\"new\"\x7d\x7d"
        (.obj samplePrototypeProps))
      = .error (.escape (.objectPrototypeWrite sampleStore (.str "2")
          (.obj [("title", .str "new")]))) := rfl
  rw [hesc] at h
  cases h

/-- C6 as amended: for every store and every decoded `added` message whose collection is
a string `c` that is not a property name of `Object.prototype` and whose id is a string
`i` other than `__proto__`, the handler completes, the resulting store maps (`c`, `i`) to
exactly the message's `fields` value, every other (collection, id) entry reads as before,
and handling the same message once more gives the same store again. -/
theorem added_overwrites_document (d : Store) (src : String)
    (props : List (String × JsVal)) (c i : String)
    (h : getOwn props "msg" = some (.str "added"))
    (hc : getOwn props "collection" = some (.str c)) (hi : getOwn props "id" = some (.str i))
    (hcn : c ∉ objectPrototypeNames) (hin : i ≠ "__proto__") :
    ∃ d1, onMessage d (.jsonText src (.obj props)) = .ok d1 ∧
      d1.doc c i = some ((getOwn props "fields").getD .undefined) ∧
      (∀ c1 i1, ¬ (c1 = c ∧ i1 = i) → d1.doc c1 i1 = d.doc c1 i1) ∧
      onMessage d1 (.jsonText src (.obj props)) = .ok d1 := by
  refine ⟨_, onMessage_added d src props c i h hc hi hcn hin, doc_write_same _ _ _ _, ?_, ?_⟩
  · intro c1 i1 hne
    exact doc_write_other _ _ _ _ c1 i1 hne
  · rw [onMessage_added _ src props c i h hc hi hcn hin]
    simp [getOwn_setOwn_same, setOwn_setOwn_same]

/-- C6 as amended, at `sampleStore` and `sampleAddedProps`: the document `posts/1`, which
held the fields `title` and `draft`, holds the field `title` of the message only. -/
theorem added_overwrites_document_witness :
    sampleStore.doc "posts" "1" = some (.obj [("title", .str "old"), ("draft", .bool true)]) ∧
    ∃ d1, onMessage sampleStore (.jsonText
        "\x7b\"msg\":\"added\",\"collection\":\"posts\",\"id\":\"1\",\"fields\":\x7b\"title\":\"new\"\x7d\x7d"
        (.obj sampleAddedProps)) = .ok d1 ∧
      d1.doc "posts" "1" = some (.obj [("title", .str "new")]) ∧
      (∀ c1 i1, ¬ (c1 = "posts" ∧ i1 = "1") → d1.doc c1 i1 = sampleStore.doc c1 i1) ∧
      onMessage d1 (.jsonText
        "\x7b\"msg\":\"added\",\"collection\":\"posts\",\"id\":\"1\",\"fields\":\x7b\"title\":\"new\"\x7d\x7d"
        (.obj sampleAddedProps)) = .ok d1 :=
  ⟨rfl, added_overwrites_document sampleStore _ sampleAddedProps "posts" "1" rfl rfl rfl
    (by decide) (by decide)⟩

/-! ## The 'message' handler: other kinds (C7) -/

/-- C7: for every store and every decoded message object whose `msg` is not the string
`added` (so `connected`, `ready`, `nosub`, `result`, `ping`, `pong`, an unknown kind, or no
kind at all), the handler completes without an exception and returns the store as it
was. -/
theorem other_kinds_leave_store (d : Store) (src : String) (props : List (String × JsVal))
    (h : getOwn props "msg" ≠ some (.str "added")) :
    onMessage d (.jsonText src (.obj props)) = .ok d :=
  onMessage_not_added d src props h

/-- C7 at `sampleStore` and a `ready` message. -/
theorem other_kinds_leave_store_witness :
    getOwn sampleReadyProps "msg" ≠ some (.str "added") ∧
    onMessage sampleStore
      (.jsonText "\x7b\"msg\":\"ready\",\"subs\":[\"1\"]\x7d" (.obj sampleReadyProps))
        = .ok sampleStore :=
  ⟨by simp [sampleReadyProps, getOwn],
   other_kinds_leave_store sampleStore _ sampleReadyProps
     (by simp [sampleReadyProps, getOwn])⟩

/-! ## The 'message' handler: frames that make it throw (C8) -/

/-- C8 fails: on a frame that is not JSON text the handler throws the exception of
`JSON.parse` instead of ignoring the frame, and on the JSON text `null` it throws on the
property access `msg.msg`. -/
theorem onMessage_throws :
    onMessage data (.notJson "not json") = .error (.threw .parseError) ∧
    onMessage data (.jsonText "null" .null) = .error (.threw .typeError) :=
  ⟨rfl, rfl⟩

/-- C8 as amended: on every store, a frame that decodes to a value other than `null` is
handled without an exception, provided that, when the value is an `added` message, its collection is a
string that is not a property name of `Object.prototype` and its id is a string other
than `__proto__`; a frame that is not JSON text makes the handler throw the exception of
`JSON.parse`; the JSON text `null` makes it throw on the property access. -/
theorem onMessage_completes_on_decoded (d : Store) (src badSrc nullSrc : String) (v : JsVal)
    (hnull : v ≠ .null) (hundef : v ≠ .undefined)
    (hnames : ∀ props, v = .obj props → getOwn props "msg" = some (.str "added") →
      ∃ c i, getOwn props "collection" = some (.str c) ∧ getOwn props "id" = some (.str i) ∧
        c ∉ objectPrototypeNames ∧ i ≠ "__proto__") :
    (∃ d1, onMessage d (.jsonText src v) = .ok d1) ∧
    onMessage d (.notJson badSrc) = .error (.threw .parseError) ∧
    onMessage d (.jsonText nullSrc .null) = .error (.threw .typeError) := by
  refine ⟨?_, rfl, rfl⟩
  cases v with
  | undefined => exact absurd rfl hundef
  | null => exact absurd rfl hnull
  | obj props =>
    by_cases h : getOwn props "msg" = some (.str "added")
    · obtain ⟨c, i, hc, hi, hcn, hin⟩ := hnames props rfl h
      exact ⟨_, onMessage_added d src props c i h hc hi hcn hin⟩
    · exact ⟨d, onMessage_not_added d src props h⟩
  | bool b => exact ⟨d, rfl⟩
  | num n => exact ⟨d, rfl⟩
  | str t => exact ⟨d, rfl⟩
  | arr items => exact ⟨d, rfl⟩

/-- C8 as amended, at the frame of `sampleAddedProps` and the frames `not json` and
`null`. -/
theorem onMessage_completes_on_decoded_witness :
    (∃ d1, onMessage sampleStore (.jsonText
        "\x7b\"msg\":\"added\",\"collection\":\"posts\",\"id\":\"1\",\"fields\":\x7b\"title\":\"new\"\x7d\x7d"
        (.obj sampleAddedProps)) = .ok d1) ∧
    onMessage sampleStore (.notJson "not json") = .error (.threw .parseError) ∧
    onMessage sampleStore (.jsonText "null" .null) = .error (.threw .typeError) :=
  onMessage_completes_on_decoded sampleStore _ "not json" "null" (.obj sampleAddedProps)
    (by simp) (by simp)
    (by
      intro props hv _
      have hp : sampleAddedProps = props := JsVal.obj.inj hv
      subst hp
      exact ⟨"posts", "1", rfl, rfl, by decide, by decide⟩)

/-! ## The fold of data messages (C1) -/

/-- The handler on a frame that decodes to a data message with plain names. -/
theorem onMessage_decoded (d : Store) (frame : RawString) (m : DataMsg)
    (hdec : decodeFrame frame = some m) (hplain : m.plainNames = true) :
    onMessage d frame =
      match m with
      | .added c i f => .ok (setOwn d c (setOwn ((getOwn d c).getD []) i f))
      | .changed _ _ _ => .ok d
      | .removed _ _ => .ok d := by
  cases frame with
  | notJson t => simp [decodeFrame, JSON.parse] at hdec
  | jsonText t v =>
    cases v with
    | obj props =>
      simp only [decodeFrame, JSON.parse, decodeDataMsg] at hdec
      split at hdec
      · rename_i kind c i hm hc hi
        split_ifs at hdec with hk1 hk2 hk3
        · subst hk1
          cases hdec
          simp only [DataMsg.plainNames, Bool.and_eq_true, decide_eq_true_eq, bne_iff_ne,
            ne_eq] at hplain
          exact onMessage_added d t props c i hm hc hi hplain.1 hplain.2
        · subst hk2
          cases hdec
          exact onMessage_not_added d t props (by rw [hm]; simp)
        · subst hk3
          cases hdec
          exact onMessage_not_added d t props (by rw [hm]; simp)
      · cases hdec
    | undefined => simp [decodeFrame, JSON.parse, decodeDataMsg] at hdec
    | null => simp [decodeFrame, JSON.parse, decodeDataMsg] at hdec
    | bool b => simp [decodeFrame, JSON.parse, decodeDataMsg] at hdec
    | num n => simp [decodeFrame, JSON.parse, decodeDataMsg] at hdec
    | str x => simp [decodeFrame, JSON.parse, decodeDataMsg] at hdec
    | arr items => simp [decodeFrame, JSON.parse, decodeDataMsg] at hdec

/-- The handler computes `addedFold`, from any store. -/
theorem onMessages_addedFold (frames : List RawString) :
    ∀ (msgs : List DataMsg) (d : Store) (c i : String) (cur : Option JsVal),
      frames.map decodeFrame = msgs.map some → (∀ m ∈ msgs, m.plainNames = true) →
      d.doc c i = cur →
      ∃ d1, onMessages d frames = .ok d1 ∧ d1.doc c i = addedFold c i cur msgs := by
  induction frames with
  | nil =>
    intro msgs d c i cur hdec _ hcur
    cases msgs with
    | nil => exact ⟨d, rfl, hcur⟩
    | cons m ms => simp at hdec
  | cons fr rest ih =>
    intro msgs d c i cur hdec hplain hcur
    cases msgs with
    | nil => simp at hdec
    | cons m ms =>
      simp only [List.map_cons, List.cons.injEq] at hdec
      obtain ⟨hfr, hrest⟩ := hdec
      have hstep := onMessage_decoded d fr m hfr (hplain m (List.mem_cons_self _ _))
      have hplain1 : ∀ x ∈ ms, x.plainNames = true :=
        fun x hx => hplain x (List.mem_cons_of_mem _ hx)
      cases m with
      | added c1 i1 f =>
        simp only at hstep
        by_cases hci : c1 = c ∧ i1 = i
        · obtain ⟨hc, hi⟩ := hci
          subst hc; subst hi
          obtain ⟨d1, h1, h2⟩ := ih ms _ c1 i1 (some f) hrest hplain1
            (doc_write_same d c1 i1 f)
          refine ⟨d1, ?_, ?_⟩
          · simp only [onMessages, hstep]; exact h1
          · simpa [addedFold] using h2
        · have hci1 : ¬ (c = c1 ∧ i = i1) := fun h => hci ⟨h.1.symm, h.2.symm⟩
          obtain ⟨d1, h1, h2⟩ := ih ms _ c i cur hrest hplain1
            ((doc_write_other d c1 i1 f c i hci1).trans hcur)
          refine ⟨d1, ?_, ?_⟩
          · simp only [onMessages, hstep]; exact h1
          · simpa [addedFold, hci] using h2
      | changed c1 i1 f =>
        simp only at hstep
        obtain ⟨d1, h1, h2⟩ := ih ms d c i cur hrest hplain1 hcur
        refine ⟨d1, ?_, ?_⟩
        · simp only [onMessages, hstep]; exact h1
        · simpa [addedFold] using h2
      | removed c1 i1 =>
        simp only at hstep
        obtain ⟨d1, h1, h2⟩ := ih ms d c i cur hrest hplain1 hcur
        refine ⟨d1, ?_, ?_⟩
        · simp only [onMessages, hstep]; exact h1
        · simpa [addedFold] using h2

/-- C1 fails: after `added posts/1`, `changed posts/1`, `removed posts/1` fed to the
handler from the empty store, the store still holds `posts/1` with the fields of the
`added` message, while the fold of the specification has deleted the entry; and after the
first two messages the store holds the `added` fields only, while the fold of the
specification has merged the `changed` field into them. -/
theorem store_is_not_specFold :
    sampleFrames.map decodeFrame = sampleMsgs.map some ∧
    (∃ d, onMessages data sampleFrames = .ok d ∧
      d.doc "posts" "1" = some (.obj [("title", .str "new")])) ∧
    specFold "posts" "1" none sampleMsgs = none ∧
    (∃ d, onMessages data (sampleFrames.take 2) = .ok d ∧
      d.doc "posts" "1" = some (.obj [("title", .str "new")])) ∧
    specFold "posts" "1" none (sampleMsgs.take 2)
      = some (.obj [("title", .str "new"), ("draft", .bool true)]) :=
  ⟨rfl, ⟨_, rfl, rfl⟩, rfl, ⟨_, rfl, rfl⟩, rfl⟩

/-- C1 as amended: for every sequence of frames that decode to `added`, `changed` and
`removed` messages with string collection and id, in which no `added` message names a
collection that is a property name of `Object.prototype` or the id `__proto__`, fed to the
handler from the empty store, the handler completes on all of them, and for every
(collection, id) the stored value is the fold of the messages in arrival order in which
`added` replaces the stored fields of the document and `changed` and `removed` leave the
store as it is. -/
theorem store_is_addedFold (frames : List RawString) (msgs : List DataMsg)
    (hdec : frames.map decodeFrame = msgs.map some)
    (hplain : ∀ m ∈ msgs, m.plainNames = true) (c i : String) :
    ∃ d, onMessages data frames = .ok d ∧ d.doc c i = addedFold c i none msgs :=
  onMessages_addedFold frames msgs data c i none hdec hplain rfl

/-- C1 as amended, at `sampleFrames`: the document `posts/1` keeps the `added` fields. -/
theorem store_is_addedFold_witness :
    sampleFrames.map decodeFrame = sampleMsgs.map some ∧
    ∃ d, onMessages data sampleFrames = .ok d ∧
      d.doc "posts" "1" = some (.obj [("title", .str "new")]) :=
  ⟨rfl, store_is_addedFold sampleFrames sampleMsgs rfl
    (by
      intro m hm
      simp only [sampleMsgs, List.mem_cons, List.mem_singleton, List.not_mem_nil,
        or_false] at hm
      rcases hm with rfl | rfl | rfl <;> decide)
    "posts" "1"⟩

/-! ## `parseArgs` (C9) -/

/-- C9: `parseArgs` returns a list of the same length whose element at each position is
the decoded value of the argument at that position when `JSON.parse` accepts it, and the
argument itself, as a string, when `JSON.parse` throws. It is a total function: it never
fails. -/
theorem parseArgs_elementwise (args : List RawString) (i : Nat) (arg : RawString)
    (h : args[i]? = some arg) :
    (parseArgs args).length = args.length ∧
    (∀ v, JSON.parse arg = .ok v → (parseArgs args)[i]? = some v) ∧
    (∀ e, JSON.parse arg = .error e → (parseArgs args)[i]? = some (.str arg.src)) := by
  refine ⟨by simp [parseArgs], ?_, ?_⟩
  · intro v hv
    simp [parseArgs, List.getElem?_map, h, hv]
  · intro e he
    simp [parseArgs, List.getElem?_map, h, he]

/-- C9 at `sampleArgs`, position 1: `hello` is kept as a string, and the list keeps its
length. -/
theorem parseArgs_elementwise_witness :
    sampleArgs[1]? = some (.notJson "hello") ∧
    (parseArgs sampleArgs).length = 3 ∧
    (parseArgs sampleArgs)[1]? = some (.str "hello") :=
  ⟨rfl, (parseArgs_elementwise sampleArgs 1 (.notJson "hello") rfl).1,
   (parseArgs_elementwise sampleArgs 1 (.notJson "hello") rfl).2.2 .parseError rfl⟩

/-! ## After `process.exit` -/

/-- Nothing runs once the process has exited. -/
theorem deliver_exited (evs : List Event) (p : Proc) (n : Nat) (h : p.exitCode = some n) :
    deliver p evs = .ok p := by
  induction evs with
  | nil => rfl
  | cons ev rest ih =>
    have hs : step p ev = .ok p := by simp [step, h]
    simp [deliver, hs, ih]

/-! ## Usage errors (C3, C4) -/

/-- C3: `subscribe-multi` run with no names calls its `usage`: the process exits with
`USAGE_ERROR`, which is 1, no client has been created and no request has been issued, and
no later event changes that. -/
theorem subscribeMulti_empty_usage (argv : Opts) (evs : List Event) :
    USAGE_ERROR = 1 ∧
    (Command.run .subscribeMulti [] argv Proc.init).exitCode = some USAGE_ERROR ∧
    (Command.run .subscribeMulti [] argv Proc.init).client.isNone = true ∧
    (main [.notJson "subscribe-multi"] argv).exitCode = some USAGE_ERROR ∧
    (main [.notJson "subscribe-multi"] argv).client.isNone = true ∧
    (main [.notJson "subscribe-multi"] argv).requests.length = 0 ∧
    ∃ p, deliver (main [.notJson "subscribe-multi"] argv) evs = .ok p ∧
      p.client.isNone = true ∧ p.requests.length = 0 :=
  ⟨rfl, rfl, rfl, rfl, rfl, rfl, _, deliver_exited evs _ USAGE_ERROR rfl, rfl, rfl⟩

/-- C4, evaluated: with no command name, and with the command name `bogus`, the script
calls the top level `usage`, which exits with `SUCCESS`, that is 0 and not 1; `call`,
`subscribe` and `subscribe-multi` without a name call the `usage` of the command and exit
with `USAGE_ERROR`, that is 1. -/
theorem top_level_usage_exit_code (argv : Opts) :
    SUCCESS = 0 ∧ USAGE_ERROR = 1 ∧
    (main [] argv).exitCode = some SUCCESS ∧
    (main [.notJson "bogus"] argv).exitCode = some SUCCESS ∧
    (main [.notJson "call"] argv).exitCode = some USAGE_ERROR ∧
    (main [.notJson "subscribe"] argv).exitCode = some USAGE_ERROR ∧
    (main [.notJson "subscribe-multi"] argv).exitCode = some USAGE_ERROR :=
  ⟨rfl, rfl, rfl, rfl, rfl, rfl, rfl⟩

/-! ## The options of the client (C10) -/

/-- C10, evaluated: `connect`, `call` and `subscribe` construct the client with the
options object `argv`; `subscribe-multi` calls `Client` without it, so the constructor
receives the empty object whatever `argv` is. -/
theorem subscribeMulti_drops_opts (argv : Opts) :
    (main [.notJson "connect"] argv).client.map Client.ctorOpts = some argv ∧
    (main [.notJson "call", .notJson "echo"] argv).client.map Client.ctorOpts = some argv ∧
    (main [.notJson "subscribe", .notJson "posts"] argv).client.map Client.ctorOpts
      = some argv ∧
    (main [.notJson "subscribe-multi", .notJson "posts"] argv).client.map Client.ctorOpts
      = some [] ∧
    (main [.notJson "subscribe-multi", .notJson "posts"]
        [("host", .str "example.com"), ("port", .num 443), ("use_ssl", .bool true)]).client.map
      Client.ctorOpts = some [] :=
  ⟨rfl, rfl, rfl, rfl, rfl⟩

/-! ## Exit codes by outcome (C5) -/

/-- C5: in a running process with a client, a connect callback error exits with
`CONNECTION_ERROR` without running the continuation (one line is logged, no request is
issued, and nothing runs afterwards), the socket-close and socket-error events exit with
`CONNECTION_ERROR`, the result callback of `call` exits with `METHOD_ERROR` on an error
and with `SUCCESS` otherwise, the callback of `subscribe` exits with `SUBSCRIPTION_ERROR`
on an error and with `SUCCESS` otherwise; the five codes are 0, 1, 2, 3, 4 and pairwise
distinct. -/
theorem exit_code_by_outcome (p : Proc) (c : Client) (hrun : p.exitCode = none)
    (hc : p.client = some c) :
    (∀ err, c.connectPending = true → err.truthy = true →
      ∃ p1, step p (.connect err) = .ok p1 ∧ p1.exitCode = some CONNECTION_ERROR ∧
        p1.requests = p.requests ∧
        p1.stdout = p.stdout ++ [.labelled "Connection error: " err] ∧
        ∀ evs, deliver p1 evs = .ok p1) ∧
    (∀ code message, ∃ p1, step p (.socketClose code message) = .ok p1 ∧
      p1.exitCode = some CONNECTION_ERROR) ∧
    (∀ error, ∃ p1, step p (.socketError error) = .ok p1 ∧
      p1.exitCode = some CONNECTION_ERROR) ∧
    (∀ method methodArgs err res, c.onConnect = .call method methodArgs →
      c.requests.length ≠ 0 →
      ∃ p1, step p (.callResult err res) = .ok p1 ∧
        p1.exitCode = some (if err.truthy then METHOD_ERROR else SUCCESS)) ∧
    (∀ subscription subscriptionArgs err,
      c.onConnect = .subscribe subscription subscriptionArgs → c.requests.length ≠ 0 →
      ∃ p1, step p (.subResult 0 err) = .ok p1 ∧
        p1.exitCode = some (if err.truthy then SUBSCRIPTION_ERROR else SUCCESS)) ∧
    [SUCCESS, USAGE_ERROR, CONNECTION_ERROR, METHOD_ERROR, SUBSCRIPTION_ERROR] = [0, 1, 2, 3, 4] ∧
    [SUCCESS, USAGE_ERROR, CONNECTION_ERROR, METHOD_ERROR, SUBSCRIPTION_ERROR].Nodup := by
  refine ⟨?_, ?_, ?_, ?_, ?_, rfl, by decide⟩
  · intro err hpend herr
    have hs : step p (.connect err) =
        .ok (connectCallback { c with connectPending := false } err
          (p.setClient { c with connectPending := false })) := by
      simp [step, hrun, hc, hpend]
    refine ⟨_, hs, ?_, ?_, ?_, ?_⟩
    · simp [connectCallback, herr, Proc.exit]
    · simp [connectCallback, herr, Proc.exit, Proc.log, Proc.requests, Proc.setClient, hc]
    · simp [connectCallback, herr, Proc.exit, Proc.log, Proc.setClient]
    · intro evs
      exact deliver_exited evs _ CONNECTION_ERROR (by simp [connectCallback, herr, Proc.exit])
  · intro code message
    have hs : step p (.socketClose code message) = .ok (onSocketClose p) := by
      simp [step, hrun, hc]
    exact ⟨_, hs, by simp [onSocketClose, Proc.exit]⟩
  · intro error
    have hs : step p (.socketError error) = .ok (onSocketError error p) := by
      simp [step, hrun, hc]
    exact ⟨_, hs, by simp [onSocketError, Proc.exit]⟩
  · intro method methodArgs err res hcall hreq
    have hs : step p (.callResult err res) = .ok (callCallback err res p) := by
      simp [step, hrun, hc, hcall, hreq]
    refine ⟨_, hs, ?_⟩
    by_cases herr : err.truthy = true
    · simp [callCallback, herr, Proc.exit]
    · simp [callCallback, herr, Proc.exit]
  · intro subscription subscriptionArgs err hsub hreq
    have hpos : 0 < c.requests.length := Nat.pos_of_ne_zero hreq
    have hs : step p (.subResult 0 err) = .ok (subscribeCallback err p) := by
      simp [step, hrun, hc, hsub, hpos]
    refine ⟨_, hs, ?_⟩
    by_cases herr : err.truthy = true
    · simp [subscribeCallback, herr, Proc.exit]
    · simp [subscribeCallback, herr, Proc.exit]

/-- C5 at three processes: a refused connection exits with 2, a method error with 3, a
method result with 0, a subscription error with 4 and a ready subscription with 0. -/
theorem exit_code_by_outcome_witness :
    (∃ p1, step (Proc.init.setClient sampleCallClient) (.connect (.str "ECONNREFUSED"))
        = .ok p1 ∧ p1.exitCode = some 2 ∧ p1.requests.length = 0) ∧
    (∃ p1, step (Proc.init.setClient sampleCallClientSent)
        (.callResult (.obj [("error", .num 404)]) .undefined) = .ok p1 ∧
      p1.exitCode = some 3) ∧
    (∃ p1, step (Proc.init.setClient sampleCallClientSent)
        (.callResult .undefined (.str "hi")) = .ok p1 ∧ p1.exitCode = some 0) ∧
    (∃ p1, step (Proc.init.setClient sampleSubscribeClientSent)
        (.subResult 0 (.obj [("error", .num 404)])) = .ok p1 ∧ p1.exitCode = some 4) ∧
    (∃ p1, step (Proc.init.setClient sampleSubscribeClientSent)
        (.subResult 0 .undefined) = .ok p1 ∧ p1.exitCode = some 0) := by
  have h1 := exit_code_by_outcome (Proc.init.setClient sampleCallClient) sampleCallClient
    rfl rfl
  have h2 := exit_code_by_outcome (Proc.init.setClient sampleCallClientSent)
    sampleCallClientSent rfl rfl
  have h3 := exit_code_by_outcome (Proc.init.setClient sampleSubscribeClientSent)
    sampleSubscribeClientSent rfl rfl
  refine ⟨?_, ?_, ?_, ?_, ?_⟩
  · obtain ⟨p1, hs, he, hr, _⟩ := h1.1 (.str "ECONNREFUSED") rfl rfl
    exact ⟨p1, hs, he, by rw [hr]; rfl⟩
  · exact h2.2.2.2.1 _ _ (.obj [("error", .num 404)]) .undefined rfl (by decide)
  · exact h2.2.2.2.1 _ _ .undefined (.str "hi") rfl (by decide)
  · exact h3.2.2.2.2.1 _ _ (.obj [("error", .num 404)]) rfl (by decide)
  · exact h3.2.2.2.2.1 _ _ .undefined rfl (by decide)

/-! ## The subscribe-multi barrier (C2) -/

theorem deliver_append (a b : List Event) :
    ∀ (p p1 : Proc), deliver p a = .ok p1 → deliver p (a ++ b) = deliver p1 b := by
  induction a with
  | nil =>
    intro p p1 h
    simp only [deliver, Except.ok.injEq] at h
    subst h
    rfl
  | cons ev rest ih =>
    intro p p1 h
    simp only [deliver, List.cons_append] at h ⊢
    cases hs : step p ev with
    | error e => rw [hs] at h; simp at h
    | ok p2 =>
      rw [hs] at h
      simp only at h ⊢
      exact ih p2 p1 h

theorem nodup_bounded_length (l : List Nat) (n : Nat) (hnd : l.Nodup)
    (hlt : ∀ x ∈ l, x < n) : l.length ≤ n := by
  have hsub : l.toFinset ⊆ Finset.range n := by
    intro x hx
    exact Finset.mem_range.mpr (hlt x (List.mem_toFinset.mp hx))
  have := Finset.card_le_card hsub
  rwa [List.toFinset_card_of_nodup hnd, Finset.card_range] at this

theorem nodup_bounded_full (l : List Nat) (n : Nat) (hnd : l.Nodup)
    (hlt : ∀ x ∈ l, x < n) (hlen : l.length = n) : ∀ i, i < n → i ∈ l := by
  have hsub : l.toFinset ⊆ Finset.range n := by
    intro x hx
    exact Finset.mem_range.mpr (hlt x (List.mem_toFinset.mp hx))
  have heq : l.toFinset = Finset.range n :=
    Finset.eq_of_subset_of_card_le hsub
      (by rw [List.toFinset_card_of_nodup hnd, Finset.card_range, hlen])
  intro i hi
  have : i ∈ l.toFinset := by rw [heq]; exact Finset.mem_range.mpr hi
  exact List.mem_toFinset.mp this

theorem full_length_ge (l : List Nat) (n : Nat) (hall : ∀ i, i < n → i ∈ l) :
    n ≤ l.length := by
  have hsub : Finset.range n ⊆ l.toFinset := by
    intro x hx
    exact List.mem_toFinset.mpr (hall x (Finset.mem_range.mp hx))
  have h1 := Finset.card_le_card hsub
  rw [Finset.card_range] at h1
  exact h1.trans (List.toFinset_card_le l)

theorem nodup_fst_unique (l : List (Nat × JsVal)) (hnd : (l.map Prod.fst).Nodup)
    (i : Nat) (e1 e2 : JsVal) (h1 : (i, e1) ∈ l) (h2 : (i, e2) ∈ l) : e1 = e2 := by
  induction l with
  | nil => simp at h1
  | cons hd tl ih =>
    simp only [List.map_cons, List.nodup_cons, List.mem_map, not_exists, not_and] at hnd
    obtain ⟨hnot, hnd1⟩ := hnd
    simp only [List.mem_cons] at h1 h2
    rcases h1 with h1 | h1 <;> rcases h2 with h2 | h2
    · rw [← h2] at h1
      exact (Prod.mk.inj h1).2
    · exact absurd (by rw [← h1]) (hnot (i, e2) h2)
    · exact absurd (by rw [← h2]) (hnot (i, e1) h1)
    · exact ih hnd1 h1 h2

/-- The callback of subscribe-multi on one completion, in a running process. -/
theorem step_subResult_multi (subs : List RawString) (p : Proc) (c : Client) (i : Nat)
    (e : JsVal) (hrun : p.exitCode = none) (hc : p.client = some c)
    (hon : c.onConnect = .subscribeMulti subs) (hi : i < c.requests.length) :
    step p (.subResult i e) = .ok (subscribeMultiCallback subs c e p) := by
  simp [step, hrun, hc, hon, hi]

/-- Successes that do not fill the counter only advance it. -/
theorem deliver_successes (subs : List RawString) (comps : List (Nat × JsVal)) :
    ∀ (p : Proc) (c : Client), p.exitCode = none → p.client = some c →
      c.onConnect = .subscribeMulti subs →
      (∀ ie ∈ comps, ie.1 < c.requests.length) → (∀ ie ∈ comps, ie.2.truthy = false) →
      c.complete + comps.length < subs.length →
      ∃ pf, deliver p (completionEvents comps) = .ok pf ∧ pf.exitCode = none ∧
        pf.client = some { c with complete := c.complete + comps.length } ∧
        pf.stdout = p.stdout ∧ pf.data = p.data := by
  induction comps with
  | nil =>
    intro p c hrun hc _ _ _ _
    exact ⟨p, rfl, hrun, by simpa using hc, rfl, rfl⟩
  | cons ie rest ih =>
    intro p c hrun hc hon hidx hok hlt
    have hs := step_subResult_multi subs p c ie.1 ie.2 hrun hc hon
      (hidx ie (List.mem_cons_self _ _))
    have hfalse : ie.2.truthy = false := hok ie (List.mem_cons_self _ _)
    have hne : ¬ (c.complete + 1 = subs.length) := by
      simp only [List.length_cons] at hlt
      omega
    have hcb : subscribeMultiCallback subs c ie.2 p
        = p.setClient { c with complete := c.complete + 1 } := by
      simp [subscribeMultiCallback, hfalse, hne]
    rw [hcb] at hs
    obtain ⟨pf, h1, h2, h3, h4, h5⟩ := ih (p.setClient { c with complete := c.complete + 1 })
      { c with complete := c.complete + 1 } (by simpa [Proc.setClient] using hrun) rfl hon
      (fun x hx => hidx x (List.mem_cons_of_mem _ hx))
      (fun x hx => hok x (List.mem_cons_of_mem _ hx))
      (by simp only [List.length_cons] at hlt; simp only; omega)
    refine ⟨pf, ?_, h2, ?_, ?_, ?_⟩
    · simp only [completionEvents, List.map_cons, deliver, hs]
      exact h1
    · rw [h3]
      simp only [List.length_cons, Nat.add_assoc, Nat.add_comm 1]
    · rw [h4]; rfl
    · rw [h5]; rfl

/-- A first error met before the counter is full: the error is logged and the process
exits with `SUBSCRIPTION_ERROR`. -/
theorem deliver_first_error (subs : List RawString) (p : Proc) (c : Client)
    (pre post : List (Nat × JsVal)) (ie : Nat × JsVal)
    (hrun : p.exitCode = none) (hc : p.client = some c)
    (hon : c.onConnect = .subscribeMulti subs) (hzero : c.complete = 0)
    (hidx : ∀ x ∈ pre ++ ie :: post, x.1 < c.requests.length)
    (hpre : ∀ x ∈ pre, x.2.truthy = false) (hie : ie.2.truthy = true)
    (hlen : pre.length < subs.length) :
    ∃ pf, deliver p (completionEvents (pre ++ ie :: post)) = .ok pf ∧
      pf.exitCode = some SUBSCRIPTION_ERROR ∧ pf.stdout = p.stdout ++ [.json ie.2] ∧
      pf.complete = some pre.length := by
  obtain ⟨p1, h1, h2, h3, h4, _⟩ := deliver_successes subs pre p c hrun hc hon
    (fun x hx => hidx x (List.mem_append_left _ hx)) hpre (by omega)
  have hs := step_subResult_multi subs p1 _ ie.1 ie.2 h2 h3 hon
    (hidx ie (List.mem_append_right _ (List.mem_cons_self _ _)))
  have hcb : subscribeMultiCallback subs { c with complete := c.complete + pre.length } ie.2 p1
      = (p1.log (.json ie.2)).exit SUBSCRIPTION_ERROR := by
    simp [subscribeMultiCallback, hie]
  rw [hcb] at hs
  refine ⟨(p1.log (.json ie.2)).exit SUBSCRIPTION_ERROR, ?_, rfl, ?_, ?_⟩
  · have happ : completionEvents (pre ++ ie :: post)
        = completionEvents pre ++ (Event.subResult ie.1 ie.2 :: completionEvents post) := by
      simp [completionEvents]
    rw [happ, deliver_append _ _ p p1 h1]
    simp only [deliver, hs]
    exact deliver_exited _ _ SUBSCRIPTION_ERROR rfl
  · simp [Proc.exit, Proc.log, h4]
  · simp [Proc.complete, Proc.exit, Proc.log, h3, hzero]

/-- A run of successes that fills the counter: the store is dumped and the process exits
with `SUCCESS`. -/
theorem deliver_all_successes (subs : List RawString) (p : Proc) (c : Client)
    (comps : List (Nat × JsVal))
    (hrun : p.exitCode = none) (hc : p.client = some c)
    (hon : c.onConnect = .subscribeMulti subs) (hzero : c.complete = 0)
    (hidx : ∀ x ∈ comps, x.1 < c.requests.length)
    (hok : ∀ x ∈ comps, x.2.truthy = false)
    (hlen : comps.length = subs.length) (hN : 1 ≤ subs.length) :
    ∃ pf, deliver p (completionEvents comps) = .ok pf ∧
      pf.exitCode = some SUCCESS ∧ pf.stdout = p.stdout ++ [.dump p.data] ∧
      pf.complete = some subs.length := by
  have hne : comps ≠ [] := by
    intro h
    rw [h] at hlen
    simp at hlen
    omega
  have hsplit := List.dropLast_append_getLast hne
  have hdl : comps.dropLast.length + 1 = subs.length := by
    rw [List.length_dropLast]
    omega
  have hmemInit : ∀ x ∈ comps.dropLast, x ∈ comps := fun x hx => List.mem_of_mem_dropLast hx
  have hmemLast : comps.getLast hne ∈ comps := List.getLast_mem hne
  obtain ⟨p1, h1, h2, h3, h4, h5⟩ := deliver_successes subs comps.dropLast p c hrun hc hon
    (fun x hx => hidx x (hmemInit x hx)) (fun x hx => hok x (hmemInit x hx)) (by omega)
  have hs := step_subResult_multi subs p1 _ (comps.getLast hne).1 (comps.getLast hne).2 h2 h3
    hon (hidx _ hmemLast)
  have hfalse : (comps.getLast hne).2.truthy = false := hok _ hmemLast
  have hfull : c.complete + comps.dropLast.length + 1 = subs.length := by omega
  have hcb : subscribeMultiCallback subs { c with complete := c.complete + comps.dropLast.length }
      (comps.getLast hne).2 p1
      = ((p1.setClient { c with complete := c.complete + comps.dropLast.length + 1 }).log
          (.dump p1.data)).exit SUCCESS := by
    simp only [subscribeMultiCallback, hfalse, hfull, Bool.false_eq_true, if_false, if_true,
      Proc.setClient, Proc.log]
  rw [hcb] at hs
  refine ⟨((p1.setClient { c with complete := c.complete + comps.dropLast.length + 1 }).log
          (.dump p1.data)).exit SUCCESS, ?_, rfl, ?_, ?_⟩
  · have happ : completionEvents comps
        = completionEvents comps.dropLast ++
          [Event.subResult (comps.getLast hne).1 (comps.getLast hne).2] := by
      conv_lhs => rw [← hsplit]
      simp [completionEvents]
    rw [happ, deliver_append _ _ p p1 h1]
    simp only [deliver, hs]
  · simp [Proc.exit, Proc.log, Proc.setClient, h4, h5]
  · simp only [Proc.complete, Proc.exit, Proc.log, Proc.setClient, Option.map_some', hfull]

/-- C2: subscribe-multi with N >= 1 names, once its N subscribe requests are issued and
the counter is 0. For every sequence of completions in which each of the N callbacks is
invoked at most once: the process exits with `SUCCESS` if and only if all N
subscriptions report success, and then the line logged is the dump of the store; it exits
with `SUBSCRIPTION_ERROR` if and only if some subscription reports an error, and then the
line logged is the first such error; at most one line is logged, and none while the
process is running; and `SUCCESS` is reached exactly when the counter equals N. -/
theorem subscribeMulti_outcome (subs : List RawString) (p : Proc) (c : Client)
    (completions : List (Nat × JsVal))
    (hN : 1 ≤ subs.length) (hrun : p.exitCode = none) (hc : p.client = some c)
    (hon : c.onConnect = .subscribeMulti subs) (hzero : c.complete = 0)
    (hreq : c.requests.length = subs.length)
    (hidx : ∀ ie ∈ completions, ie.1 < subs.length)
    (hnd : (completions.map Prod.fst).Nodup) :
    ∃ pf, deliver p (completionEvents completions) = .ok pf ∧
      (pf.exitCode = some SUCCESS ↔
        ∀ i, i < subs.length → ∃ e, (i, e) ∈ completions ∧ e.truthy = false) ∧
      (pf.exitCode = some SUBSCRIPTION_ERROR ↔ ∃ ie ∈ completions, ie.2.truthy = true) ∧
      (pf.exitCode = some SUCCESS → pf.stdout = p.stdout ++ [.dump p.data]) ∧
      (∀ ie, completions.find? (fun x => x.2.truthy) = some ie →
        pf.stdout = p.stdout ++ [.json ie.2]) ∧
      (pf.exitCode = none → pf.stdout = p.stdout) ∧
      (pf.exitCode = none ∨ pf.exitCode = some SUCCESS ∨
        pf.exitCode = some SUBSCRIPTION_ERROR) ∧
      (pf.exitCode = some SUCCESS ↔ pf.complete = some subs.length) := by
  have hlenle : completions.length ≤ subs.length := by
    have := nodup_bounded_length (completions.map Prod.fst) subs.length hnd (by
      intro x hx
      obtain ⟨ie, hie, rfl⟩ := List.mem_map.mp hx
      exact hidx ie hie)
    simpa using this
  have hidx1 : ∀ x ∈ completions, x.1 < c.requests.length := by
    intro x hx
    rw [hreq]
    exact hidx x hx
  have hcodes : SUBSCRIPTION_ERROR ≠ SUCCESS := by decide
  cases hfind : completions.find? (fun x => x.2.truthy) with
  | none =>
    have hall : ∀ x ∈ completions, x.2.truthy = false := by
      intro x hx
      have := (List.find?_eq_none.mp hfind) x hx
      simpa using this
    have hnoerr : ¬ ∃ ie ∈ completions, ie.2.truthy = true := by
      rintro ⟨ie, hie, ht⟩
      rw [hall ie hie] at ht
      exact Bool.false_ne_true ht
    by_cases hl : completions.length = subs.length
    · obtain ⟨pf, hdel, hexit, hout, hcomp⟩ := deliver_all_successes subs p c completions hrun
        hc hon hzero hidx1 hall hl hN
      refine ⟨pf, hdel, ?_, ?_, ?_, ?_, ?_, ?_, ?_⟩
      · refine ⟨fun _ i hi => ?_, fun _ => hexit⟩
        have hmem := nodup_bounded_full (completions.map Prod.fst) subs.length hnd (by
          intro x hx
          obtain ⟨ie, hie, rfl⟩ := List.mem_map.mp hx
          exact hidx ie hie) (by simpa using hl) i hi
        obtain ⟨ie, hie, rfl⟩ := List.mem_map.mp hmem
        exact ⟨ie.2, hie, hall ie hie⟩
      · refine ⟨fun h => ?_, fun h => absurd h hnoerr⟩
        rw [hexit] at h
        exact absurd (Option.some.inj h).symm hcodes
      · exact fun _ => hout
      · intro ie hie
        cases hie
      · intro h
        rw [hexit] at h
        cases h
      · exact Or.inr (Or.inl hexit)
      · exact ⟨fun _ => hcomp, fun _ => hexit⟩
    · have hlt : completions.length < subs.length := lt_of_le_of_ne hlenle hl
      obtain ⟨pf, hdel, hexit, hcl, hout, _⟩ := deliver_successes subs completions p c hrun hc
        hon hidx1 hall (by omega)
      refine ⟨pf, hdel, ?_, ?_, ?_, ?_, ?_, ?_, ?_⟩
      · refine ⟨fun h => ?_, fun h => ?_⟩
        · rw [hexit] at h
          cases h
        · have hge := full_length_ge (completions.map Prod.fst) subs.length (by
            intro i hi
            obtain ⟨e, he, _⟩ := h i hi
            exact List.mem_map.mpr ⟨(i, e), he, rfl⟩)
          simp only [List.length_map] at hge
          omega
      · refine ⟨fun h => ?_, fun h => absurd h hnoerr⟩
        rw [hexit] at h
        cases h
      · intro h
        rw [hexit] at h
        cases h
      · intro ie hie
        cases hie
      · exact fun _ => hout
      · exact Or.inl hexit
      · refine ⟨fun h => ?_, fun h => ?_⟩
        · rw [hexit] at h
          cases h
        · simp only [Proc.complete, hcl, Option.map_some', Option.some.injEq] at h
          omega
  | some ie =>
    obtain ⟨hie, pre, post, hsplit, hpre⟩ := List.find?_eq_some.mp hfind
    have hpre1 : ∀ x ∈ pre, x.2.truthy = false := by
      intro x hx
      simpa using hpre x hx
    have hmem : ie ∈ completions := by
      rw [hsplit]
      exact List.mem_append_right _ (List.mem_cons_self _ _)
    have hprelen : pre.length < subs.length := by
      have : completions.length = pre.length + (post.length + 1) := by
        rw [hsplit]
        simp
      omega
    obtain ⟨pf, hdel, hexit, hout, hcomp⟩ := deliver_first_error subs p c pre post ie hrun hc
      hon hzero (by rw [← hsplit]; exact hidx1) hpre1 hie hprelen
    rw [← hsplit] at hdel
    refine ⟨pf, hdel, ?_, ?_, ?_, ?_, ?_, ?_, ?_⟩
    · refine ⟨fun h => ?_, fun h => ?_⟩
      · rw [hexit] at h
        exact absurd (Option.some.inj h) hcodes
      · obtain ⟨e, he, hfalse⟩ := h ie.1 (hidx ie hmem)
        have heq := nodup_fst_unique completions hnd ie.1 e ie.2 he hmem
        rw [heq, hie] at hfalse
        exact absurd hfalse (by decide)
    · exact ⟨fun _ => ⟨ie, hmem, hie⟩, fun _ => hexit⟩
    · intro h
      rw [hexit] at h
      exact absurd (Option.some.inj h) hcodes
    · intro ie1 hie1
      cases hie1
      exact hout
    · intro h
      rw [hexit] at h
      cases h
    · exact Or.inr (Or.inr hexit)
    · refine ⟨fun h => ?_, fun h => ?_⟩
      · rw [hexit] at h
        exact absurd (Option.some.inj h) hcodes
      · rw [hcomp] at h
        have := Option.some.inj h
        omega

/-- C2 at `ddp subscribe-multi posts users`: the process reached from the script by a
successful connect is the one of `sampleMultiClient`; when both subscriptions report
success, in the order 1, 0, it exits with 0 after the dump of the store; when
subscription 1 reports success and subscription 0 an error, it exits with 4 after that
error. -/
theorem subscribeMulti_outcome_witness :
    step (main (.notJson "subscribe-multi" :: sampleNames) []) (.connect .undefined)
      = .ok (Proc.init.setClient sampleMultiClient) ∧
    (∃ pf, deliver (Proc.init.setClient sampleMultiClient)
        (completionEvents [(1, .undefined), (0, .undefined)]) = .ok pf ∧
      pf.exitCode = some 0 ∧ pf.stdout = [.dump data]) ∧
    (∃ pf, deliver (Proc.init.setClient sampleMultiClient)
        (completionEvents [(1, .undefined), (0, .obj [("error", .num 404)])]) = .ok pf ∧
      pf.exitCode = some 4 ∧ pf.stdout = [.json (.obj [("error", .num 404)])]) := by
  refine ⟨rfl, ?_, ?_⟩
  · obtain ⟨pf, hdel, hsucc, _, hout, _⟩ := subscribeMulti_outcome sampleNames
      (Proc.init.setClient sampleMultiClient) sampleMultiClient
      [(1, .undefined), (0, .undefined)] (by decide) rfl rfl rfl rfl rfl
      (by
        intro ie hie
        simp only [List.mem_cons, List.mem_singleton, List.not_mem_nil, or_false] at hie
        rcases hie with rfl | rfl <;> decide)
      (by decide)
    have hexit : pf.exitCode = some SUCCESS := hsucc.mpr (by
      intro i hi
      have hi2 : i < 2 := hi
      interval_cases i
      · exact ⟨.undefined, by simp, rfl⟩
      · exact ⟨.undefined, by simp, rfl⟩)
    exact ⟨pf, hdel, hexit, hout hexit⟩
  · obtain ⟨pf, hdel, _, herr, _, hfirst, _⟩ := subscribeMulti_outcome sampleNames
      (Proc.init.setClient sampleMultiClient) sampleMultiClient
      [(1, .undefined), (0, .obj [("error", .num 404)])] (by decide) rfl rfl rfl rfl rfl
      (by
        intro ie hie
        simp only [List.mem_cons, List.mem_singleton, List.not_mem_nil, or_false] at hie
        rcases hie with rfl | rfl <;> decide)
      (by decide)
    have hexit : pf.exitCode = some SUBSCRIPTION_ERROR :=
      herr.mpr ⟨(0, .obj [("error", .num 404)]), by simp, rfl⟩
    exact ⟨pf, hdel, hexit, hfirst _ rfl⟩

end Ddp
